import Mathlib

/-!
Shallow embedding of the orchestration logic in `engine.py` of the ConvNext
repository: the per-micro-step body of `train_one_epoch` (scheduling, loss
finiteness check, gradient accumulation, optimizer stepping, metric
recording), the per-class accuracy pass of `evaluate`, and the
ground-truth parsing and statistical bucketing of `prediction`.

Scalar values (losses, learning rates, weight decays, confidences) are
modelled as rationals; tensors only ever enter the specified logic through
scalar reductions, boolean masks and index selections, which are modelled
on lists. Fallible Python operations (list indexing, `int()` parsing,
string indexing, the `assert`) are modelled in `Except String`.
-/

namespace Engine

/-- One optimizer parameter group as `train_one_epoch` sees it
(engine.py lines 51–55): mutable `lr` and `weight_decay`, static
`lr_scale`. -/
structure ParamGroup where
  lr : ℚ
  lr_scale : ℚ
  weight_decay : ℚ
deriving DecidableEq, Repr

/-- Arguments of `train_one_epoch` that drive the control flow
(engine.py lines 29–34). The schedule tables are `None` or a list of
per-global-iteration values. -/
structure TrainCfg where
  update_freq : ℕ
  num_training_steps_per_epoch : ℕ
  start_steps : ℕ
  lr_schedule_values : Option (List ℚ)
  wd_schedule_values : Option (List ℚ)
  has_model_ema : Bool
  use_amp : Bool
deriving Repr

/-- Python list subscription `l[i]` for a nonnegative index `i` (engine.py
lines 53 and 55): the stored value when `i` is in bounds, an `IndexError`
when `i` is past the end of the list. -/
def pyIndex (l : List ℚ) (i : ℕ) : Except String ℚ :=
  match l.get? i with
  | some v => .ok v
  | none => .error "IndexError: list index out of range"

/-- Literal translation of the gate on engine.py line 50,
`if lr_schedule_values is not None or wd_schedule_values is not None and
data_iter_step % update_freq == 0:`, with Python operator precedence
(`and` binds tighter than `or`). -/
def lrwdUpdateCond (cfg : TrainCfg) (data_iter_step : ℕ) : Bool :=
  cfg.lr_schedule_values.isSome ||
    (cfg.wd_schedule_values.isSome && (data_iter_step % cfg.update_freq == 0))

/-- Body of engine.py lines 52–55 for one parameter group at global
iteration `it`: the learning rate is refreshed to `table[it] * lr_scale`
when an lr table is supplied, and the weight decay to `table[it]` when a
wd table is supplied and the group's current weight decay is positive. -/
def refreshGroup (lrTbl wdTbl : Option (List ℚ)) (it : ℕ) (g : ParamGroup) :
    Except String ParamGroup :=
  let s1 : Except String ParamGroup :=
    match lrTbl with
    | some tbl =>
      match pyIndex tbl it with
      | .ok v => .ok { g with lr := v * g.lr_scale }
      | .error e => .error e
    | none => .ok g
  match s1 with
  | .error e => .error e
  | .ok g1 =>
    match wdTbl with
    | some tbl =>
      if g1.weight_decay > 0 then
        match pyIndex tbl it with
        | .ok v => .ok { g1 with weight_decay := v }
        | .error e => .error e
      else .ok g1
    | none => .ok g1

/-- The `for i, param_group in enumerate(optimizer.param_groups)` loop of
engine.py lines 51–55, applied to every group in order; a raised
exception aborts the loop. -/
def refreshGroups (lrTbl wdTbl : Option (List ℚ)) (it : ℕ) :
    List ParamGroup → Except String (List ParamGroup)
  | [] => .ok []
  | g :: gs =>
    match refreshGroup lrTbl wdTbl it g with
    | .error e => .error e
    | .ok g2 =>
      match refreshGroups lrTbl wdTbl it gs with
      | .error e => .error e
      | .ok gs2 => .ok (g2 :: gs2)

/-- Outcome of the external forward pass and criterion on one batch: the
scalar reported by `loss.item()` (engine.py line 71) and whether
`math.isfinite` holds of it (line 73). The model, criterion and data are
external collaborators, so the loop is parametrised by this outcome. -/
structure BatchLoss where
  loss : ℚ
  finite : Bool
deriving Repr

/-- Observable effects of one micro-step of the `train_one_epoch` loop
body (engine.py lines 44–103). `scaledLoss` is the loss actually
backpropagated after `loss /= update_freq` (lines 80/89); `gradUpdate`
records whether the optimizer parameters were updated this micro-step
(`optimizer.step()` on line 92, or the loss scaler call with
`update_grad=True` on lines 81–83); `recordedLoss` is the value pushed to
`metric_logger` and the loggers (lines 103, 122, 133). -/
structure MicroOut where
  processed : Bool
  refreshed : Bool
  scaledLoss : Option ℚ
  gradUpdate : Bool
  zeroedGrad : Bool
  emaUpdated : Bool
  recordedLoss : Option ℚ
deriving DecidableEq, Repr

/-- Effects of a micro-step skipped by the guard on engine.py lines
46–47 (`if step >= num_training_steps_per_epoch: continue`): nothing at
all happens. -/
def MicroOut.skipped : MicroOut :=
  ⟨false, false, none, false, false, false, none⟩

/-- Effects of a fully processed micro-step at index `i` (engine.py lines
63–103): both the mixed-precision branch (lines 77–87) and the full
precision branch (lines 88–95) divide the loss by `update_freq`,
update the optimizer exactly when `(data_iter_step + 1) % update_freq == 0`,
and in that case also clear gradients and update the EMA model when one
is attached; the recorded loss is the raw `loss_value` captured on
line 71 before the division. -/
def processedOut (cfg : TrainCfg) (i : ℕ) (b : BatchLoss) : MicroOut :=
  if cfg.use_amp then
    { processed := true, refreshed := lrwdUpdateCond cfg i,
      scaledLoss := some (b.loss / (cfg.update_freq : ℚ)),
      gradUpdate := (i + 1) % cfg.update_freq == 0,
      zeroedGrad := (i + 1) % cfg.update_freq == 0,
      emaUpdated := ((i + 1) % cfg.update_freq == 0) && cfg.has_model_ema,
      recordedLoss := some b.loss }
  else
    { processed := true, refreshed := lrwdUpdateCond cfg i,
      scaledLoss := some (b.loss / (cfg.update_freq : ℚ)),
      gradUpdate := (i + 1) % cfg.update_freq == 0,
      zeroedGrad := (i + 1) % cfg.update_freq == 0,
      emaUpdated := ((i + 1) % cfg.update_freq == 0) && cfg.has_model_ema,
      recordedLoss := some b.loss }

/-- One iteration of the `train_one_epoch` loop body (engine.py lines
44–103) at micro-step index `i`: compute `step = i // update_freq` and
skip entirely when `step >= num_training_steps_per_epoch`; otherwise
refresh the parameter groups when the line-50 gate holds, check the loss
for finiteness (the `assert` on line 75 raises on a non-finite loss), and
produce the processed-step effects. -/
def microStep (cfg : TrainCfg) (groups : List ParamGroup) (i : ℕ)
    (b : BatchLoss) : Except String (List ParamGroup × MicroOut) :=
  let step := i / cfg.update_freq
  if cfg.num_training_steps_per_epoch ≤ step then .ok (groups, MicroOut.skipped)
  else
    let it := cfg.start_steps + step
    let g2res :=
      if lrwdUpdateCond cfg i then
        refreshGroups cfg.lr_schedule_values cfg.wd_schedule_values it groups
      else .ok groups
    match g2res with
    | .error e => .error e
    | .ok groups2 =>
      if b.finite = false then
        .error "AssertionError: loss is not finite, stopping training"
      else .ok (groups2, processedOut cfg i b)

/-- Result of running the training loop over a batch list: the per-step
effect trace of the processed prefix, the final parameter groups, and the
raised exception when one aborted the loop. -/
structure RunResult where
  trace : List MicroOut
  groups : List ParamGroup
  err : Option String
deriving Repr

/-- The `for data_iter_step, (samples, targets) in enumerate(...)` loop of
`train_one_epoch` from micro-step index `i` onwards: each batch is handed
to `microStep`; a raised exception aborts the loop at once, leaving the
remaining batches unprocessed. -/
def trainRun (cfg : TrainCfg) (groups : List ParamGroup) (i : ℕ) :
    List BatchLoss → RunResult
  | [] => ⟨[], groups, none⟩
  | b :: rest =>
    match microStep cfg groups i b with
    | .error e => ⟨[], groups, some e⟩
    | .ok (g2, out) =>
      let r := trainRun cfg g2 (i + 1) rest
      ⟨out :: r.trace, r.groups, r.err⟩

/-! Embedding of the `prediction` function (engine.py lines 236–369):
ground-truth parsing from the filename and the statistical report. -/

/-- One element of the `result` list built on engine.py line 285:
`(pred, conf, target, path)`, with the path omitted (it never enters the
statistical report). `pred` is the arg-max class, `conf` the raw maximum
output value, `tgt` the parsed ground-truth label or the sentinel `-1`. -/
structure PredRec where
  pred : ℤ
  conf : ℚ
  tgt : ℤ
deriving DecidableEq, Repr

/-- Characters of a filename before its first underscore: Python
`str(data[1]).split('_')[0]` on engine.py line 273 (the whole string when
no underscore occurs). -/
def firstChunk : List Char → List Char
  | [] => []
  | c :: cs => if c = '_' then [] else c :: firstChunk cs

/-- Ground-truth derivation of engine.py lines 273–274,
`target = int(spltnm[0][1]) if spltnm[0][0] == 't' else -1`, with Python
error semantics: subscripting an empty string raises `IndexError`;
subscripting a length-one chunk at position 1 raises `IndexError`;
`int()` of a non-digit character raises `ValueError`. -/
def parseTarget (fname : String) : Except String ℤ :=
  match firstChunk fname.data with
  | [] => .error "IndexError: string index out of range"
  | c :: rest =>
    if c = 't' then
      match rest with
      | [] => .error "IndexError: string index out of range"
      | d :: _ =>
        if d.isDigit then .ok ((d.toNat : ℤ) - ('0'.toNat : ℤ))
        else .error "ValueError: invalid literal for int"
    else .ok (-1)

/-- Modelled from the spec: the pattern named by the specification phrase
"parsing a `t<digit>` prefix of the filename", used only to state which
filenames the specification says carry a ground-truth label. -/
def specTDigitPattern (fname : String) : Bool :=
  match fname.data with
  | c :: d :: _ => c = 't' && d.isDigit
  | _ => false

/-- Bucket predicate of engine.py line 320: true negative,
`x[0]==x[2] and x[0]==0`. -/
def isTN (r : PredRec) : Bool := r.pred == r.tgt && r.pred == 0

/-- Bucket predicate of engine.py line 321: true positive,
`x[0]==x[2] and x[0]==1`. -/
def isTP (r : PredRec) : Bool := r.pred == r.tgt && r.pred == 1

/-- Bucket predicate of engine.py line 322: false negative,
`x[0]!=x[2] and x[0]==0`. -/
def isFN (r : PredRec) : Bool := r.pred != r.tgt && r.pred == 0

/-- Bucket predicate of engine.py line 323: false positive,
`x[0]!=x[2] and x[0]==1`. -/
def isFP (r : PredRec) : Bool := r.pred != r.tgt && r.pred == 1

/-- Size of the `conf_TN` list comprehension on engine.py line 320. -/
def countTN (rs : List PredRec) : ℕ := (rs.filter isTN).length

/-- Size of the `conf_TP` list comprehension on engine.py line 321. -/
def countTP (rs : List PredRec) : ℕ := (rs.filter isTP).length

/-- Size of the `conf_FN` list comprehension on engine.py line 322. -/
def countFN (rs : List PredRec) : ℕ := (rs.filter isFN).length

/-- Size of the `conf_FP` list comprehension on engine.py line 323. -/
def countFP (rs : List PredRec) : ℕ := (rs.filter isFP).length

/-- Number of buckets a single record falls into. -/
def bucketCount (r : PredRec) : ℕ :=
  (if isTN r then 1 else 0) + (if isTP r then 1 else 0) +
    (if isFN r then 1 else 0) + (if isFP r then 1 else 0)

/-- Sum of the ground-truth column, `np.sum(np.array(result)[...,2])` on
engine.py line 302. -/
def sumTgt (rs : List PredRec) : ℤ := (rs.map PredRec.tgt).sum

/-- Branch gate of the statistical report (engine.py line 302): the
predicted-class-only fallback runs when the ground-truth column sums to a
negative value, the four-bucket statistics (lines 318–329) otherwise. -/
def useFourBucket (rs : List PredRec) : Bool := !(sumTgt rs < 0)

/-- Number of records whose ground truth is known, i.e. whose parsed
target is not the sentinel `-1`. -/
def knownCount (rs : List PredRec) : ℕ :=
  (rs.filter (fun r => r.tgt != -1)).length

/-! Embedding of the per-class accuracy pass of `evaluate`
(engine.py lines 217–227). -/

/-- Elements of `l` at the positions where `mask` is true:
`torch.masked_select` on a one-dimensional tensor (engine.py line 219). -/
def maskedSelect {α : Type} (l : List α) (mask : List Bool) : List α :=
  ((l.zip mask).filter (fun p => p.2)).map (fun p => p.1)

/-- Flat row-major selection of the rows of `output` at the true positions
of the per-row `mask`: `torch.masked_select(output,
mask.unsqueeze(1).expand_as(output))` on engine.py lines 222–223, which
yields the selected rows concatenated in order. -/
def maskExpandSelect (output : List (List ℚ)) (mask : List Bool) : List ℚ :=
  (maskedSelect output mask).flatten

/-- Fuel-driven regrouping of a flat list into rows of width `C`. -/
def view2dGo (C : ℕ) : ℕ → List ℚ → List (List ℚ)
  | _, [] => []
  | 0, _ :: _ => []
  | fuel + 1, x :: xs => (x :: xs).take C :: view2dGo C fuel ((x :: xs).drop C)

/-- Reshape `output_class.view(-1, len(class_to_idx))` of engine.py
line 224: regroup a flat selection into rows of width `C`. -/
def view2d (C : ℕ) (l : List ℚ) : List (List ℚ) := view2dGo C l.length l

/-- Position of a strictly larger entry, or of an equal entry at a smaller
index, than position `t` of `row`: `t` is within the top-`k` selection of
`timm.utils.accuracy` exactly when fewer than `k` such positions exist. -/
def beats (row : List ℚ) (t : ℕ) (p : ℕ × ℚ) : Bool :=
  decide (row.getD t 0 < p.2) || (p.2 == row.getD t 0 && decide (p.1 < t))

/-- Whether the target class `t` of a sample with output `row` is counted
correct at top-`k` by `timm.utils.accuracy` (engine.py lines 188, 225):
the target index is among the `k` highest-scoring classes. -/
def topkHit (k : ℕ) (row : List ℚ) (t : ℤ) : Bool :=
  decide (0 ≤ t) && ((row.enum.filter (beats row t.toNat)).length < k)

/-- Top-`k` accuracy of `timm.utils.accuracy` over a batch, as a
percentage: `100 * (number of top-k correct samples) / batch size`. -/
def accK (k : ℕ) (outputs : List (List ℚ)) (targets : List ℤ) : ℚ :=
  100 * (((outputs.zip targets).filter (fun p => topkHit k p.1 p.2)).length : ℚ) /
    (targets.length : ℚ)

/-- One named meter update `metric_logger.meters[...].update(v, n=...)`
(engine.py lines 226–227). -/
structure MeterUpdate where
  name : String
  value : ℚ
  n : ℕ
deriving DecidableEq, Repr

/-- Body of the per-class loop of `evaluate` (engine.py lines 217–227)
for one `(class_name, class_id)` entry: build the boolean mask
`target == class_id`, select the targets and output rows of that class,
and when the class has at least one sample record top-1 and top-5
accuracy meters restricted to those samples; a class with no samples
records nothing. `C` is `len(data_loader.dataset.class_to_idx)`. -/
def classUpdates (C : ℕ) (output : List (List ℚ)) (target : List ℤ)
    (nc : String × ℤ) : List MeterUpdate :=
  let mask := target.map (fun t => t == nc.2)
  let target_class := maskedSelect target mask
  let data_size := target_class.length
  if 0 < data_size then
    let output_class := view2d C (maskExpandSelect output mask)
    [{ name := "acc1_" ++ nc.1, value := accK 1 output_class target_class,
       n := data_size },
     { name := "acc5_" ++ nc.1, value := accK 5 output_class target_class,
       n := data_size }]
  else []

/-- The whole `for class_name, class_id in
data_loader.dataset.class_to_idx.items()` loop of engine.py lines
217–227: the meter updates of every class, in iteration order. -/
def perClassUpdates (class_to_idx : List (String × ℤ))
    (output : List (List ℚ)) (target : List ℤ) : List MeterUpdate :=
  (class_to_idx.map (classUpdates class_to_idx.length output target)).flatten

/-! Concrete instances used in counterexamples and witnesses. -/

/-- A training configuration with accumulation frequency 2, an lr table
and a wd table, as used in the C1 counterexample run. -/
def cfgC1 : TrainCfg :=
  { update_freq := 2, num_training_steps_per_epoch := 5, start_steps := 0,
    lr_schedule_values := some [1/10, 1/100],
    wd_schedule_values := none,
    has_model_ema := false, use_amp := false }

/-- A single optimizer parameter group with unit lr and lr_scale. -/
def groupsC1 : List ParamGroup := [{ lr := 1, lr_scale := 1, weight_decay := 0 }]

/-- Prediction records of the C5 counterexample: one unknown-ground-truth
negative prediction and one known true positive. -/
def rsC5 : List PredRec := [⟨0, 0, -1⟩, ⟨1, 0, 1⟩]

/-- Prediction records of the C6 counterexample: one known positive and
two unknown-ground-truth records. -/
def rsC6 : List PredRec := [⟨1, 0, 1⟩, ⟨0, 0, -1⟩, ⟨0, 0, -1⟩]

/-! Theorems. -/

/-- C1: the gate on engine.py line 50 reads
`lr_schedule_values is not None or wd_schedule_values is not None and
data_iter_step % update_freq == 0`, which Python parses as
`A or (B and C)`; so whenever an lr table is supplied the refresh body
runs at EVERY micro-step. At the intermediate micro-step 1 (update_freq
2, 1 % 2 ≠ 0) the learning rate is refreshed from the table, against both
the claim and the source comment on line 49 ("Update LR & WD for the
first acc"). -/
theorem C1_refresh_fires_at_intermediate_microstep :
    (1 % cfgC1.update_freq ≠ 0) ∧
    lrwdUpdateCond cfgC1 1 = true ∧
    microStep cfgC1 groupsC1 1 ⟨2, true⟩ =
      .ok ([{ lr := 1/10 * 1, lr_scale := 1, weight_decay := 0 }],
        processedOut cfgC1 1 ⟨2, true⟩) ∧
    (processedOut cfgC1 1 ⟨2, true⟩).refreshed = true := by
  refine ⟨by decide, rfl, ?_, rfl⟩
  simp [microStep, cfgC1, groupsC1, lrwdUpdateCond, refreshGroups, refreshGroup,
    pyIndex]

/-- C4: schedule lookup by global step: for an in-bounds step the lookup
returns exactly the stored table value, and the refresh sets the group's
learning rate to that value times its static `lr_scale`; for a step past
the end of the table both the bare lookup and the refresh raise the
explicit `IndexError` instead of wrapping around. -/
theorem C4_schedule_lookup_exact_or_index_error (tbl : List ℚ) (i : ℕ)
    (g : ParamGroup) :
    (∀ h : i < tbl.length,
      pyIndex tbl i = .ok (tbl.get ⟨i, h⟩) ∧
      refreshGroup (some tbl) none i g =
        .ok { g with lr := tbl.get ⟨i, h⟩ * g.lr_scale }) ∧
    (tbl.length ≤ i →
      pyIndex tbl i = .error "IndexError: list index out of range" ∧
      refreshGroup (some tbl) none i g =
        .error "IndexError: list index out of range") := by
  constructor
  · intro h
    have hg : tbl[i]? = some tbl[i] := List.getElem?_eq_getElem h
    exact ⟨by simp [pyIndex, hg], by simp [refreshGroup, pyIndex, hg]⟩
  · intro h
    have hg : tbl[i]? = none := List.getElem?_eq_none h
    exact ⟨by simp [pyIndex, hg], by simp [refreshGroup, pyIndex, hg]⟩

/-- Witness for C4 at the concrete table [3, 5]: step 1 is in bounds and
yields the stored value 5 scaled by the group's lr_scale 2; step 7 is out
of bounds and raises. -/
theorem C4_witness :
    pyIndex [3, 5] 1 = .ok 5 ∧
    refreshGroup (some [3, 5]) none 1 ⟨1, 2, 0⟩ = .ok ⟨(5 : ℚ) * 2, 2, 0⟩ ∧
    pyIndex [3, 5] 7 = .error "IndexError: list index out of range" := by
  obtain ⟨h1, h2⟩ :=
    (C4_schedule_lookup_exact_or_index_error [3, 5] 1 ⟨1, 2, 0⟩).1 (by decide)
  exact ⟨h1, h2,
    ((C4_schedule_lookup_exact_or_index_error [3, 5] 7 ⟨1, 2, 0⟩).2 (by decide)).1⟩

/-- C2: a non-finite loss at a processed micro-step never yields a
successful step result (the assert on engine.py line 75 raises before any
backward or optimizer work), and the raised exception stops the loop at
once: the failing batch contributes no trace entry — in particular no
optimizer step — and the remaining batches are never processed. -/
theorem C2_nonfinite_loss_stops_loop (cfg : TrainCfg) (groups : List ParamGroup)
    (i : ℕ) (b : BatchLoss) (rest : List BatchLoss)
    (hproc : i / cfg.update_freq < cfg.num_training_steps_per_epoch)
    (hfin : b.finite = false) :
    (∀ g2 out, microStep cfg groups i b ≠ .ok (g2, out)) ∧
    (∀ e, microStep cfg groups i b = .error e →
      trainRun cfg groups i (b :: rest) = ⟨[], groups, some e⟩) := by
  have hskip : ¬ (cfg.num_training_steps_per_epoch ≤ i / cfg.update_freq) :=
    not_le.mpr hproc
  constructor
  · intro g2 out hok
    simp only [microStep, if_neg hskip, hfin] at hok
    split at hok
    · simp at hok
    · simp at hok
  · intro e he
    simp only [trainRun, he]

/-- Witness for C2: a concrete two-batch run whose first batch reports a
non-finite loss aborts with the assertion message, with an empty trace
and the second batch left unprocessed. -/
theorem C2_witness :
    (0 : ℕ) / 1 < 5 ∧
    trainRun ⟨1, 5, 0, none, none, false, false⟩ [] 0 [⟨0, false⟩, ⟨1, true⟩] =
      ⟨[], [], some "AssertionError: loss is not finite, stopping training"⟩ := by
  refine ⟨by decide, ?_⟩
  have h := C2_nonfinite_loss_stops_loop ⟨1, 5, 0, none, none, false, false⟩ []
    0 ⟨0, false⟩ [⟨1, true⟩] (by decide) rfl
  exact h.2 _ (by simp [microStep, lrwdUpdateCond])

/-- Inversion helper: a successful processed micro-step always carries the
canonical processed-step effects. -/
theorem microStep_ok_out (cfg : TrainCfg) (groups g2 : List ParamGroup)
    (i : ℕ) (b : BatchLoss) (out : MicroOut)
    (hproc : i / cfg.update_freq < cfg.num_training_steps_per_epoch)
    (hok : microStep cfg groups i b = .ok (g2, out)) :
    out = processedOut cfg i b := by
  have hskip : ¬ (cfg.num_training_steps_per_epoch ≤ i / cfg.update_freq) :=
    not_le.mpr hproc
  simp only [microStep, if_neg hskip] at hok
  split at hok
  · simp at hok
  · split at hok
    · simp at hok
    · simp only [Except.ok.injEq, Prod.mk.injEq] at hok
      exact hok.2.symm

/-- C3: at a processed micro-step, the optimizer parameters are updated
(`optimizer.step()` in full precision, the loss-scaler call with
`update_grad=True` under mixed precision) exactly when the number of
micro-steps processed so far, i + 1, is a multiple of update_freq; a step
that updates also clears the accumulated gradients, and updates the EMA
shadow model exactly when one is attached, while off-boundary micro-steps
do none of these. -/
theorem C3_optimizer_step_cadence (cfg : TrainCfg) (groups g2 : List ParamGroup)
    (i : ℕ) (b : BatchLoss) (out : MicroOut)
    (hproc : i / cfg.update_freq < cfg.num_training_steps_per_epoch)
    (hok : microStep cfg groups i b = .ok (g2, out)) :
    (out.gradUpdate = true ↔ (i + 1) % cfg.update_freq = 0) ∧
    out.zeroedGrad = out.gradUpdate ∧
    out.emaUpdated = (out.gradUpdate && cfg.has_model_ema) := by
  have h := microStep_ok_out cfg groups g2 i b out hproc hok
  subst h
  unfold processedOut
  cases hamp : cfg.use_amp <;> simp [beq_iff_eq]

/-- Witness for C3: with update_freq 2 and an attached EMA model, the
boundary micro-step 1 updates the optimizer, clears gradients and updates
the EMA model, while micro-step 0 does none of these. -/
theorem C3_witness :
    (processedOut ⟨2, 5, 0, none, none, true, false⟩ 1 ⟨4, true⟩).gradUpdate = true ∧
    (processedOut ⟨2, 5, 0, none, none, true, false⟩ 1 ⟨4, true⟩).zeroedGrad = true ∧
    (processedOut ⟨2, 5, 0, none, none, true, false⟩ 1 ⟨4, true⟩).emaUpdated = true ∧
    (processedOut ⟨2, 5, 0, none, none, true, false⟩ 0 ⟨4, true⟩).gradUpdate = false := by
  have hok1 : microStep ⟨2, 5, 0, none, none, true, false⟩ [] 1 ⟨4, true⟩ =
      .ok ([], processedOut ⟨2, 5, 0, none, none, true, false⟩ 1 ⟨4, true⟩) := by
    simp [microStep, lrwdUpdateCond]
  have hok0 : microStep ⟨2, 5, 0, none, none, true, false⟩ [] 0 ⟨4, true⟩ =
      .ok ([], processedOut ⟨2, 5, 0, none, none, true, false⟩ 0 ⟨4, true⟩) := by
    simp [microStep, lrwdUpdateCond]
  have h1 := C3_optimizer_step_cadence _ _ _ 1 _ _ (by decide) hok1
  have h0 := C3_optimizer_step_cadence _ _ _ 0 _ _ (by decide) hok0
  have hg1 : (processedOut ⟨2, 5, 0, none, none, true, false⟩ 1 ⟨4, true⟩).gradUpdate
      = true := h1.1.mpr (by decide)
  refine ⟨hg1, by rw [h1.2.1, hg1], by rw [h1.2.2, hg1]; rfl, ?_⟩
  by_contra hc
  rw [Bool.not_eq_false] at hc
  exact absurd (h0.1.mp hc) (by decide)

/-- Helper: once the derived per-epoch step index is at or past
`num_training_steps_per_epoch`, every remaining batch is drained through
the skip branch and the parameter groups never change. -/
theorem trainRun_all_skipped (cfg : TrainCfg) :
    ∀ (batches : List BatchLoss) (groups : List ParamGroup) (i : ℕ),
      cfg.num_training_steps_per_epoch ≤ i / cfg.update_freq →
      trainRun cfg groups i batches =
        ⟨List.replicate batches.length MicroOut.skipped, groups, none⟩ := by
  intro batches
  induction batches with
  | nil => intro groups i h; rfl
  | cons b rest ih =>
    intro groups i h
    have hstep : microStep cfg groups i b = .ok (groups, MicroOut.skipped) := by
      simp [microStep, if_pos h]
    have hnext : cfg.num_training_steps_per_epoch ≤ (i + 1) / cfg.update_freq :=
      le_trans h (Nat.div_le_div_right (Nat.le_succ i))
    simp [trainRun, hstep, ih groups (i + 1) hnext, List.replicate]

/-- C9: a micro-step whose derived per-epoch step index `i / update_freq`
reaches `num_training_steps_per_epoch` is skipped with no processing at
all — no schedule refresh, no backpropagated loss, no optimizer step, no
gradient clearing, no EMA update, no recorded metric — and from such an
index on the loop still consumes every remaining batch, leaving the
parameter groups untouched and raising nothing. -/
theorem C9_overflow_steps_skipped (cfg : TrainCfg) (groups : List ParamGroup)
    (i : ℕ)
    (h : cfg.num_training_steps_per_epoch ≤ i / cfg.update_freq) :
    (∀ b, microStep cfg groups i b = .ok (groups, MicroOut.skipped)) ∧
    MicroOut.skipped =
      { processed := false, refreshed := false, scaledLoss := none,
        gradUpdate := false, zeroedGrad := false, emaUpdated := false,
        recordedLoss := none } ∧
    (∀ batches, trainRun cfg groups i batches =
      ⟨List.replicate batches.length MicroOut.skipped, groups, none⟩) := by
  exact ⟨fun b => by simp [microStep, if_pos h], rfl,
    fun batches => trainRun_all_skipped cfg batches groups i h⟩

/-- Witness for C9: with update_freq 2 and 3 declared steps per epoch,
micro-step index 6 is past the end; a two-batch tail (one of them even
non-finite) is drained with an all-skipped trace and no error. -/
theorem C9_witness :
    (3 : ℕ) ≤ 6 / 2 ∧
    trainRun ⟨2, 3, 0, none, none, false, false⟩ [⟨1, 1, 1⟩] 6
        [⟨5, true⟩, ⟨7, false⟩] =
      ⟨[MicroOut.skipped, MicroOut.skipped], [⟨1, 1, 1⟩], none⟩ := by
  refine ⟨by decide, ?_⟩
  exact (C9_overflow_steps_skipped ⟨2, 3, 0, none, none, false, false⟩
    [⟨1, 1, 1⟩] 6 (by decide)).2.2 [⟨5, true⟩, ⟨7, false⟩]

/-- C10: at every processed micro-step the loss pushed to the metric
aggregator and loggers is the raw criterion loss captured by
`loss.item()` before the `loss /= update_freq` division, while the
backpropagated loss is the raw loss divided by update_freq; so the
reported per-step loss is the full unscaled batch loss regardless of
update_freq. -/
theorem C10_recorded_loss_unscaled (cfg : TrainCfg) (groups g2 : List ParamGroup)
    (i : ℕ) (b : BatchLoss) (out : MicroOut)
    (hproc : i / cfg.update_freq < cfg.num_training_steps_per_epoch)
    (hok : microStep cfg groups i b = .ok (g2, out)) :
    out.recordedLoss = some b.loss ∧
    out.scaledLoss = some (b.loss / (cfg.update_freq : ℚ)) := by
  have h := microStep_ok_out cfg groups g2 i b out hproc hok
  subst h
  unfold processedOut
  cases hamp : cfg.use_amp <;> simp

/-- Witness for C10: with update_freq 2 and a batch loss of 3, the
recorded metric value is 3 while the backpropagated loss is 3/2. -/
theorem C10_witness :
    (0 : ℕ) / 2 < 5 ∧
    (processedOut ⟨2, 5, 0, none, none, false, false⟩ 0 ⟨3, true⟩).recordedLoss =
      some 3 ∧
    (processedOut ⟨2, 5, 0, none, none, false, false⟩ 0 ⟨3, true⟩).scaledLoss =
      some ((3 : ℚ) / 2) := by
  have hok : microStep ⟨2, 5, 0, none, none, false, false⟩ [] 0 ⟨3, true⟩ =
      .ok ([], processedOut ⟨2, 5, 0, none, none, false, false⟩ 0 ⟨3, true⟩) := by
    simp [microStep, lrwdUpdateCond]
  have h := C10_recorded_loss_unscaled _ _ _ 0 _ _ (by decide) hok
  exact ⟨by decide, h.1, by simpa using h.2⟩

/-- Helper: a record whose predicted class is 0 or 1 falls in exactly one
of the four buckets of engine.py lines 320–323, whatever its ground-truth
field holds (including the unknown sentinel -1). -/
theorem bucketCount_eq_one (r : PredRec) (h : r.pred = 0 ∨ r.pred = 1) :
    bucketCount r = 1 := by
  cases hbt : (r.pred == r.tgt) <;>
    simp only [bucketCount, isTN, isTP, isFN, isFP, bne, hbt] <;>
    rcases h with h | h <;> simp [h]

/-- Helper: the length of a filtered cons. -/
theorem filter_length_cons {α : Type} (p : α → Bool) (a : α) (l : List α) :
    ((a :: l).filter p).length = (if p a then 1 else 0) + (l.filter p).length := by
  by_cases hp : p a <;> simp [List.filter_cons, hp, Nat.add_comm]

/-- Helper: when every predicted class is 0 or 1, the four bucket counts
of engine.py lines 320–323 sum to the total number of records. -/
theorem bucket_counts_sum (rs : List PredRec)
    (h : ∀ r ∈ rs, r.pred = 0 ∨ r.pred = 1) :
    countTN rs + countTP rs + countFN rs + countFP rs = rs.length := by
  induction rs with
  | nil => rfl
  | cons r rest ih =>
    have hone := bucketCount_eq_one r (h r (List.mem_cons_self r rest))
    have ih2 := ih (fun x hx => h x (List.mem_cons_of_mem r hx))
    unfold bucketCount at hone
    simp only [countTN, countTP, countFN, countFP, filter_length_cons,
      List.length_cons] at *
    omega

/-- C5 counterexample: with the two records (pred 0, ground truth unknown)
and (pred 1, ground truth 1), the four-bucket branch runs (the target
column sums to 0), yet the four bucket counts sum to 2 while only 1
record has known ground truth: the unknown-ground-truth record is itself
counted as a false negative by line 322. -/
theorem C5_counterexample :
    useFourBucket rsC5 = true ∧
    countTN rsC5 + countTP rsC5 + countFN rsC5 + countFP rsC5 = 2 ∧
    knownCount rsC5 = 1 := by decide

/-- C5 amended: when every predicted class is 0 or 1, every record in the
four-bucket branch — including those with unknown ground truth — lands in
exactly one bucket; a record with predicted = actual = 1 is a true
positive and in no other bucket; and the four bucket counts sum to the
TOTAL number of records, which exceeds the number of records with known
ground truth whenever an unknown-ground-truth record is present. -/
theorem C5_buckets_partition_all_records (rs : List PredRec)
    (h : ∀ r ∈ rs, r.pred = 0 ∨ r.pred = 1) :
    (∀ r ∈ rs, bucketCount r = 1) ∧
    countTN rs + countTP rs + countFN rs + countFP rs = rs.length ∧
    (∀ r ∈ rs, r.pred = 1 → r.tgt = 1 →
      isTP r = true ∧ isTN r = false ∧ isFN r = false ∧ isFP r = false) := by
  refine ⟨fun r hr => bucketCount_eq_one r (h r hr), bucket_counts_sum rs h, ?_⟩
  intro r _ h1 h2
  simp [isTP, isTN, isFN, isFP, h1, h2, bne]

/-- Witness for C5 (amended): on the counterexample records the bucket
counts sum to the record count, and the known true positive is in the TP
bucket only. -/
theorem C5_witness :
    countTN rsC5 + countTP rsC5 + countFN rsC5 + countFP rsC5 = rsC5.length ∧
    isTP ⟨1, 0, 1⟩ = true ∧ isFN ⟨1, 0, 1⟩ = false := by
  have h := C5_buckets_partition_all_records rsC5 (by decide)
  exact ⟨h.2.1, (h.2.2 ⟨1, 0, 1⟩ (by decide) rfl rfl).1,
    (h.2.2 ⟨1, 0, 1⟩ (by decide) rfl rfl).2.2.1⟩

/-- C6 counterexample: the record list rsC6 has a record with known
ground truth (the first one, labelled 1), yet the ground-truth column
sums to -1, so the line-302 gate selects the predicted-class-only
fallback instead of the four-bucket classification. -/
theorem C6_counterexample :
    useFourBucket rsC6 = false ∧ rsC6.any (fun r => r.tgt != -1) = true := by
  decide

/-- Helper: when every ground truth is the unknown sentinel -1, the
target column sums to minus the number of records. -/
theorem sumTgt_all_unknown (rs : List PredRec) (h : ∀ r ∈ rs, r.tgt = -1) :
    sumTgt rs = -(rs.length : ℤ) := by
  induction rs with
  | nil => rfl
  | cons r rest ih =>
    have hr := h r (List.mem_cons_self r rest)
    have ih2 := ih (fun x hx => h x (List.mem_cons_of_mem r hx))
    simp only [sumTgt, List.map_cons, List.sum_cons, List.length_cons] at *
    rw [hr, ih2]
    push_cast
    ring

/-- C6 amended: the statistical report branches on the SIGN OF THE SUMMED
ground-truth column (engine.py line 302), not on the existence of a known
label: when no record has known ground truth (and at least one record
exists) the fallback runs, and conversely the four-bucket branch implies
some record has known ground truth; but the fallback can also run when a
known label exists, as the counterexample shows. -/
theorem C6_fallback_branches_on_sum (rs : List PredRec) (hne : rs ≠ []) :
    ((∀ r ∈ rs, r.tgt = -1) → useFourBucket rs = false) ∧
    (useFourBucket rs = true → ∃ r ∈ rs, r.tgt ≠ -1) := by
  have hfall : (∀ r ∈ rs, r.tgt = -1) → useFourBucket rs = false := by
    intro h
    have hs := sumTgt_all_unknown rs h
    have hlen : 0 < rs.length := List.length_pos.mpr hne
    have hneg : sumTgt rs < 0 := by rw [hs]; omega
    simp [useFourBucket, hneg]
  refine ⟨hfall, ?_⟩
  intro h
  by_contra hc
  push_neg at hc
  rw [hfall hc] at h
  exact absurd h (by simp)

/-- Witness for C6 (amended): a single unknown-ground-truth record makes
the report take the predicted-class-only fallback. -/
theorem C6_witness :
    useFourBucket [(⟨0, 0, -1⟩ : PredRec)] = false := by
  exact (C6_fallback_branches_on_sum [⟨0, 0, -1⟩] (by simp)).1 (by decide)

/-- C7 counterexample: the filename "tx_0001.jpg" lacks the `t<digit>`
pattern of the specification, yet the parse of engine.py lines 273–274
raises a `ValueError` (Python `int('x')`) instead of producing the
sentinel -1. -/
theorem C7_counterexample :
    specTDigitPattern "tx_0001.jpg" = false ∧
    parseTarget "tx_0001.jpg" = .error "ValueError: invalid literal for int" := by
  exact ⟨by decide, rfl⟩

/-- C7 amended: a filename starting with 't' followed by a digit parses
to that digit; a filename whose first character is neither 't' nor an
underscore yields the sentinel -1 with no error; but a filename that
starts with 't' NOT followed by a digit raises an error (IndexError when
the first underscore-chunk is just "t", ValueError otherwise) instead of
yielding the sentinel. -/
theorem C7_parse_target_cases (fname : String) :
    (∀ d rest, fname.data = 't' :: d :: rest → d.isDigit = true →
      parseTarget fname = .ok ((d.toNat : ℤ) - ('0'.toNat : ℤ))) ∧
    (∀ c rest, fname.data = c :: rest → c ≠ 't' → c ≠ '_' →
      parseTarget fname = .ok (-1)) ∧
    (∀ d rest, fname.data = 't' :: d :: rest → d.isDigit = false →
      ∃ e, parseTarget fname = .error e) := by
  refine ⟨?_, ?_, ?_⟩
  · intro d rest hdata hd
    have hdu : d ≠ '_' := by
      intro h; rw [h] at hd; simp at hd
    unfold parseTarget
    rw [hdata]
    simp [firstChunk, hdu, hd]
  · intro c rest hdata hct hcu
    unfold parseTarget
    rw [hdata]
    cases hfc : firstChunk (c :: rest) with
    | nil =>
      exfalso
      simp [firstChunk, hcu] at hfc
    | cons x xs =>
      have hx : x = c := by
        simp [firstChunk, hcu] at hfc
        exact hfc.1.symm
      simp [hx, hct]
  · intro d rest hdata hd
    unfold parseTarget
    rw [hdata]
    by_cases hdu : d = '_'
    · subst hdu
      exact ⟨_, rfl⟩
    · simp [firstChunk, hdu, hd]

/-- Witness for C7 (amended): "t1_img.jpg" parses to ground truth 1 and
"neg_img.jpg" to the unknown sentinel -1. -/
theorem C7_witness :
    parseTarget "t1_img.jpg" = .ok 1 ∧ parseTarget "neg_img.jpg" = .ok (-1) := by
  constructor
  · exact (C7_parse_target_cases "t1_img.jpg").1 '1' "_img.jpg".data (by decide)
      (by decide)
  · exact (C7_parse_target_cases "neg_img.jpg").2.1 'n' "eg_img.jpg".data
      (by decide) (by decide) (by decide)

/-- Helper: selecting a list by the mask of its own predicate is
filtering. -/
theorem maskedSelect_map_self {α : Type} (p : α → Bool) (l : List α) :
    maskedSelect l (l.map p) = l.filter p := by
  induction l with
  | nil => rfl
  | cons a l ih =>
    simp only [maskedSelect] at ih ⊢
    by_cases hp : p a <;> simp [List.filter_cons, hp, ih]

/-- Helper: selecting one list by a mask computed from an equally long
second list keeps exactly the entries whose partner satisfies the
predicate. -/
theorem maskedSelect_of_map {α β : Type} (p : β → Bool) :
    ∀ (l : List α) (m : List β), l.length = m.length →
      maskedSelect l (m.map p) =
        ((l.zip m).filter (fun q => p q.2)).map Prod.fst
  | [], _, _ => by simp [maskedSelect]
  | _ :: _, [], h => by simp at h
  | a :: l, b :: m, h => by
    have hlen : l.length = m.length := by simpa using h
    have ih := maskedSelect_of_map p l m hlen
    simp only [maskedSelect] at ih ⊢
    by_cases hp : p b <;> simp [List.filter_cons, hp, ih]

/-- Helper: masked selection only returns elements of the source list. -/
theorem mem_maskedSelect {α : Type} (l : List α) (mask : List Bool) :
    ∀ x ∈ maskedSelect l mask, x ∈ l := by
  intro x hx
  simp only [maskedSelect, List.mem_map, List.mem_filter] at hx
  obtain ⟨⟨a, c⟩, ⟨hz, _⟩, rfl⟩ := hx
  exact (List.of_mem_zip hz).1

/-- Helper: a list of nonempty rows is no longer than its
concatenation. -/
theorem length_le_length_flatten (C : ℕ) (hC : 0 < C) :
    ∀ rows : List (List ℚ), (∀ r ∈ rows, r.length = C) →
      rows.length ≤ rows.flatten.length
  | [], _ => by simp
  | r :: rs, h => by
    have hr : r.length = C := h r (by simp)
    have ih := length_le_length_flatten C hC rs (fun x hx => h x (by simp [hx]))
    simp only [List.flatten_cons, List.length_append, List.length_cons]
    omega

/-- Helper: regrouping the concatenation of rows of uniform positive
width C with enough fuel recovers the rows. -/
theorem view2dGo_flatten (C : ℕ) (hC : 0 < C) :
    ∀ (rows : List (List ℚ)) (fuel : ℕ), (∀ r ∈ rows, r.length = C) →
      rows.length ≤ fuel →
      view2dGo C fuel rows.flatten = rows
  | [], fuel, _, _ => by cases fuel <;> rfl
  | _ :: _, 0, _, hf => by simp at hf
  | r :: rs, fuel + 1, h, hf => by
    have hr : r.length = C := h r (by simp)
    have hrne : r ≠ [] := by
      intro he; rw [he] at hr; simp at hr; omega
    obtain ⟨x, xs, rfl⟩ := List.exists_cons_of_ne_nil hrne
    have ih := view2dGo_flatten C hC rs fuel (fun y hy => h y (by simp [hy]))
      (by simpa using hf)
    simp only [List.flatten_cons, List.cons_append, view2dGo, List.append_eq]
    rw [← List.cons_append, List.take_left' hr, List.drop_left' hr, ih]

/-- Helper: `.view(-1, C)` of the flat masked selection recovers exactly
the selected rows when all rows have the uniform positive width C. -/
theorem view2d_flatten (C : ℕ) (hC : 0 < C) (rows : List (List ℚ))
    (h : ∀ r ∈ rows, r.length = C) :
    view2d C rows.flatten = rows :=
  view2dGo_flatten C hC rows rows.flatten.length h
    (length_le_length_flatten C hC rows h)

/-- C8: the per-class pass of `evaluate` contributes accuracy meters for
class (nm, cid) exactly when some sample of the batch has label cid; the
top-1/top-5 values and the sample count are then computed over precisely
the output rows and targets of the class-cid samples, and a class with no
samples in the batch contributes no meter entry at all (not a zero
value). -/
theorem C8_per_class_accuracy (c2i : List (String × ℤ)) (output : List (List ℚ))
    (target : List ℤ) (nm : String) (cid : ℤ)
    (hC : 0 < c2i.length) (hrows : ∀ r ∈ output, r.length = c2i.length)
    (hlen : output.length = target.length) :
    classUpdates c2i.length output target (nm, cid) =
      if cid ∈ target then
        [{ name := "acc1_" ++ nm,
           value := accK 1
             (((output.zip target).filter (fun q => q.2 == cid)).map Prod.fst)
             (target.filter (fun t => t == cid)),
           n := (target.filter (fun t => t == cid)).length },
         { name := "acc5_" ++ nm,
           value := accK 5
             (((output.zip target).filter (fun q => q.2 == cid)).map Prod.fst)
             (target.filter (fun t => t == cid)),
           n := (target.filter (fun t => t == cid)).length }]
      else [] := by
  have hmask : maskedSelect target (target.map (fun t => t == cid)) =
      target.filter (fun t => t == cid) := maskedSelect_map_self _ target
  have hout : maskedSelect output (target.map (fun t => t == cid)) =
      ((output.zip target).filter (fun q => q.2 == cid)).map Prod.fst :=
    maskedSelect_of_map _ output target hlen
  have hsel : ∀ r ∈ maskedSelect output (target.map (fun t => t == cid)),
      r.length = c2i.length :=
    fun r hr => hrows r (mem_maskedSelect output _ r hr)
  have hview : view2d c2i.length
      (maskExpandSelect output (target.map (fun t => t == cid))) =
      maskedSelect output (target.map (fun t => t == cid)) := by
    unfold maskExpandSelect
    exact view2d_flatten c2i.length hC _ hsel
  have hcond : (0 < (target.filter (fun t => t == cid)).length) ↔ cid ∈ target := by
    rw [List.length_pos]
    constructor
    · intro hne
      obtain ⟨x, hx⟩ := List.exists_mem_of_ne_nil _ hne
      obtain ⟨hxt, hxc⟩ := List.mem_filter.mp hx
      rw [← show x = cid by simpa using hxc]
      exact hxt
    · intro hm hnil
      have hmem : cid ∈ target.filter (fun t => t == cid) :=
        List.mem_filter.mpr ⟨hm, by simp⟩
      rw [hnil] at hmem
      simp at hmem
  simp only [classUpdates, hmask, hview, hout]
  by_cases hm : cid ∈ target
  · rw [if_pos (hcond.mpr hm), if_pos hm]
  · rw [if_neg (fun hpos => hm (hcond.mp hpos)), if_neg hm]

/-- Witness for C8: with classes neg ↦ 0 and pos ↦ 1 and a two-sample
batch whose samples are both of class pos, the neg class contributes no
accuracy meter entry. -/
theorem C8_witness :
    classUpdates 2 [[1, 2], [3, 1]] [1, 1] ("neg", 0) = [] := by
  have h := C8_per_class_accuracy [("neg", 0), ("pos", 1)] [[1, 2], [3, 1]]
    [1, 1] "neg" 0 (by decide) (by intro r hr; fin_cases hr <;> rfl) rfl
  simpa using h

end Engine
